import Mathlib

/-!
# Sales Analytics System — verification of the data-processing pipeline

A shallow embedding of the pure data-transformation core of the
Sales-Analytics-System repository (`src/utils/data_processor.py`,
`src/utils/api_handler.py`, `src/main.py`), together with proofs about it.

Python strings are modelled as lists of characters (`PyStr`), Python ints as
`Int`, Python floats as exact rationals `ℚ`, Python `None`-able values as
`Option`, and a Python statement that can raise an exception is modelled as a
function returning `Option` (with `none` for the raised exception).
Python dicts (which preserve insertion order) are modelled as association
lists updated in insertion order.
-/

/-- Python strings, modelled as lists of characters. -/
abbrev PyStr := List Char

/-- Models Python `str.strip()`: remove leading and trailing whitespace. -/
def pyStrip (s : PyStr) : PyStr :=
  ((s.dropWhile Char.isWhitespace).reverse.dropWhile Char.isWhitespace).reverse

/-- Models Python `str.split(sep)` for a one-character separator: split on every
occurrence of `sep`, keeping empty parts (`n` separators yield `n + 1` parts). -/
def pySplit (sep : Char) : PyStr → List PyStr
  | [] => [[]]
  | c :: cs =>
    if c = sep then [] :: pySplit sep cs
    else
      match pySplit sep cs with
      | [] => [[c]]
      | p :: ps => (c :: p) :: ps

/-- Models Python `sep.join(parts)` for a one-character separator. -/
def pyJoin (sep : Char) : List PyStr → PyStr
  | [] => []
  | [p] => p
  | p :: ps => p ++ sep :: pyJoin sep ps

/-- Models Python `str.replace(old, new)` for one-character `old` and `new`. -/
def pyReplaceChar (old new : Char) (s : PyStr) : PyStr :=
  s.map fun c => if c = old then new else c

/-- Models Python `str.replace(old, '')` for a one-character `old`:
delete every occurrence. -/
def pyRemoveChar (old : Char) (s : PyStr) : PyStr :=
  s.filter fun c => c ≠ old

/-- Models Python `str.startswith(p)`. -/
def pyStartsWith (p s : PyStr) : Bool :=
  p.isPrefixOf s

/-- Numeric value of a list of decimal digit characters (most significant first). -/
def digitsVal (ds : List Char) : Nat :=
  ds.foldl (fun n c => n * 10 + (c.toNat - '0'.toNat)) 0

/-- Models Python `int(s)` applied to a string, returning `none` where Python
raises `ValueError`: optional surrounding whitespace, an optional sign, then a
non-empty run of decimal digits.  (Underscore digit separators, which Python
also accepts, are not modelled; they do not occur in this pipeline's data.) -/
def pyInt (s : PyStr) : Option Int :=
  let t := pyStrip s
  let sg : Int := match t.head? with
    | some '-' => -1
    | _ => 1
  let u : PyStr := match t with
    | '-' :: r => r
    | '+' :: r => r
    | r => r
  if u ≠ [] ∧ u.all Char.isDigit then some (sg * digitsVal u) else none

/-- Models Python `float(s)` applied to a string, returning `none` where Python
raises `ValueError`: optional surrounding whitespace, an optional sign, a
mantissa that is `digits`, `digits.digits`, `digits.` or `.digits`, and an
optional exponent `e`/`E` with optional sign and digits.  The value is exact
(`ℚ`).  (The literals `inf`/`infinity`/`nan` and underscore separators, which
Python also accepts, are not modelled; they do not occur in this pipeline's
data.) -/
def pyFloat (s : PyStr) : Option ℚ :=
  let t := pyStrip s
  let sg : ℚ := match t.head? with
    | some '-' => -1
    | _ => 1
  let u : PyStr := match t with
    | '-' :: r => r
    | '+' :: r => r
    | r => r
  let ipart := u.takeWhile Char.isDigit
  let rest₁ := u.dropWhile Char.isDigit
  let fpart : PyStr := match rest₁ with
    | '.' :: r => r.takeWhile Char.isDigit
    | _ => []
  let rest₂ : PyStr := match rest₁ with
    | '.' :: r => r.dropWhile Char.isDigit
    | r => r
  if ipart = [] ∧ fpart = [] then none
  else
    let mant : ℚ := (digitsVal ipart : ℚ) + (digitsVal fpart : ℚ) / (10 : ℚ) ^ fpart.length
    match rest₂ with
    | [] => some (sg * mant)
    | 'e' :: e | 'E' :: e =>
      let esg : Int := match e.head? with
        | some '-' => -1
        | _ => 1
      let ed : PyStr := match e with
        | '-' :: r => r
        | '+' :: r => r
        | r => r
      if ed ≠ [] ∧ ed.all Char.isDigit then
        some (sg * mant * (10 : ℚ) ^ (esg * digitsVal ed))
      else none
    | _ => none

/-- Models Python `s < t` on strings: lexicographic comparison by code point. -/
def pyStrLt : PyStr → PyStr → Bool
  | [], [] => false
  | [], _ :: _ => true
  | _ :: _, [] => false
  | a :: as, b :: bs => if a < b then true else if b < a then false else pyStrLt as bs

/-- Models Python `s <= t` on strings: lexicographic comparison by code point. -/
def pyStrLe : PyStr → PyStr → Bool
  | [], _ => true
  | _ :: _, [] => false
  | a :: as, b :: bs => if a < b then true else if b < a then false else pyStrLe as bs

/-- Models Python float division `a / b`, which raises `ZeroDivisionError`
(here: `none`) when the denominator is zero. -/
def pydiv (a b : ℚ) : Option ℚ :=
  if b = 0 then none else some (a / b)

/-- Round-half-to-even on a rational, modelling Python's `round` tie-breaking. -/
def roundHalfEven (q : ℚ) : ℤ :=
  let f := ⌊q⌋
  let r := q - f
  if r < 1 / 2 then f
  else if 1 / 2 < r then f + 1
  else if f % 2 = 0 then f else f + 1

/-- Models Python `round(x, 2)` (on the exact rational value of `x`). -/
def pyRound2 (q : ℚ) : ℚ :=
  (roundHalfEven (q * 100) : ℚ) / 100

/-- A parsed sales transaction (`parse_transactions` output record). -/
structure Transaction where
  TransactionID : PyStr
  Date : PyStr
  ProductID : PyStr
  ProductName : PyStr
  Quantity : Int
  UnitPrice : ℚ
  CustomerID : PyStr
  Region : PyStr
deriving DecidableEq, Repr

/-- `Amount` of a transaction: `Quantity * UnitPrice`, recomputed on demand. -/
def amount (t : Transaction) : ℚ :=
  (t.Quantity : ℚ) * t.UnitPrice

/-- Field processing of one `parse_transactions` loop iteration, applied to
the already-split parts: require exactly 8 fields, normalize commas, and
convert the numeric fields; `none` models the `continue` on a wrong field
count or a `ValueError` from `int`/`float`. -/
def parseFields : List PyStr → Option Transaction
  | [p0, p1, p2, p3, p4, p5, p6, p7] =>
    let product_name := pyReplaceChar ',' ' ' p3
    let qty_str := pyRemoveChar ',' p4
    let price_str := pyRemoveChar ',' p5
    match pyInt qty_str, pyFloat price_str with
    | some q, some up =>
      some { TransactionID := pyStrip p0
             Date := pyStrip p1
             ProductID := pyStrip p2
             ProductName := pyStrip product_name
             Quantity := q
             UnitPrice := up
             CustomerID := pyStrip p6
             Region := pyStrip p7 }
    | _, _ => none
  | _ => none

/-- One iteration of the `parse_transactions` loop body: split the line on
`'|'` and process the fields. -/
def parseLine (line : PyStr) : Option Transaction :=
  parseFields (pySplit '|' line)

/-- `parse_transactions(raw_lines)`: parse each line in order, silently
skipping malformed ones. -/
def parse_transactions : List PyStr → List Transaction
  | [] => []
  | line :: rest =>
    match parseLine line with
    | some tx => tx :: parse_transactions rest
    | none => parse_transactions rest

/-- The five business-rule validation checks of `validate_and_filter`
(`is_valid` stays `True` iff every check passes). -/
def validPred (tx : Transaction) : Bool :=
  pyStartsWith ['T'] tx.TransactionID &&
  pyStartsWith ['P'] tx.ProductID &&
  pyStartsWith ['C'] tx.CustomerID &&
  !decide (tx.Quantity ≤ 0) &&
  !decide (tx.UnitPrice ≤ 0) &&
  !(tx.CustomerID.isEmpty || tx.Region.isEmpty)

/-- The validation loop of `validate_and_filter`: partition into the
order-preserved valid list and the invalid count. -/
def splitValid : List Transaction → List Transaction × Nat
  | [] => ([], 0)
  | tx :: rest =>
    let r := splitValid rest
    if validPred tx then (tx :: r.1, r.2) else (r.1, r.2 + 1)

/-- Python truthiness of an optional string (`if region:`):
`None` and the empty string are falsy. -/
def pyTruthyStr : Option PyStr → Bool
  | none => false
  | some s => !s.isEmpty

/-- The summary dictionary returned by `validate_and_filter`. -/
structure FilterSummary where
  total_input : Nat
  invalid : Nat
  final_count : Nat
deriving DecidableEq, Repr

/-- `validate_and_filter(transactions, region, min_amount, max_amount)`:
validate, then apply the optional region / minimum-amount / maximum-amount
filters in that fixed order. -/
def validate_and_filter (transactions : List Transaction) (region : Option PyStr)
    (min_amount max_amount : Option ℚ) : List Transaction × Nat × FilterSummary :=
  let vr := splitValid transactions
  let valid_after_rules := vr.1
  let invalid_count := vr.2
  let l₁ := if pyTruthyStr region then
      valid_after_rules.filter (fun t => t.Region = region.getD [])
    else valid_after_rules
  let l₂ := match min_amount with
    | some m => l₁.filter (fun t => decide (m ≤ amount t))
    | none => l₁
  let l₃ := match max_amount with
    | some m => l₂.filter (fun t => decide (amount t ≤ m))
    | none => l₂
  (l₃, invalid_count, ⟨transactions.length, invalid_count, l₃.length⟩)

/-- Spec-side description of the region filter: unset (or blank, which Python
truthiness treats as unset) imposes no constraint; otherwise exact,
case-sensitive equality. -/
def regionOkSpec (region : Option PyStr) (t : Transaction) : Bool :=
  match region with
  | none => true
  | some r => if r.isEmpty then true else t.Region = r

/-- Spec-side description of the minimum-amount filter: unset imposes no
constraint; otherwise `Amount ≥ min`. -/
def minOkSpec (m : Option ℚ) (t : Transaction) : Bool :=
  match m with
  | none => true
  | some m => decide (m ≤ amount t)

/-- Spec-side description of the maximum-amount filter: unset imposes no
constraint; otherwise `Amount ≤ max`. -/
def maxOkSpec (m : Option ℚ) (t : Transaction) : Bool :=
  match m with
  | none => true
  | some m => decide (amount t ≤ m)

/-! ### Basic lemmas about the validator -/

theorem splitValid_fst (txs : List Transaction) :
    (splitValid txs).1 = txs.filter validPred := by
  induction txs with
  | nil => rfl
  | cons tx rest ih =>
    by_cases h : validPred tx <;> simp [splitValid, List.filter, h, ih]

theorem splitValid_snd_add (txs : List Transaction) :
    (splitValid txs).2 + (txs.filter validPred).length = txs.length := by
  induction txs with
  | nil => rfl
  | cons tx rest ih =>
    by_cases h : validPred tx <;>
      simp [splitValid, List.filter, h] <;> omega

theorem filter_and_assoc {α : Type} (p q : α → Bool) (l : List α) :
    (l.filter p).filter q = l.filter fun a => p a && q a := by
  induction l with
  | nil => rfl
  | cons a l ih =>
    by_cases hp : p a <;> by_cases hq : q a <;> simp [List.filter, hp, hq, ih]

theorem filter_true_of_all {α : Type} (p : α → Bool) (l : List α)
    (h : ∀ a, p a = true) : l.filter p = l := by
  induction l with
  | nil => rfl
  | cons a l ih => simp [List.filter, h, ih]

/-- The region-filter stage equals filtering by `regionOkSpec`. -/
theorem region_stage_eq (region : Option PyStr) (l : List Transaction) :
    (if pyTruthyStr region then l.filter (fun t => t.Region = region.getD []) else l)
      = l.filter (regionOkSpec region) := by
  match region with
  | none =>
    simp [pyTruthyStr, regionOkSpec, filter_true_of_all]
  | some r =>
    by_cases h : r.isEmpty
    · simp [pyTruthyStr, regionOkSpec, h, filter_true_of_all]
    · simp only [pyTruthyStr, h, Bool.not_false, if_true, Option.getD_some]
      exact List.filter_congr fun t _ => by simp [regionOkSpec, h]

theorem min_stage_eq (m : Option ℚ) (l : List Transaction) :
    (match m with
      | some m => l.filter (fun t => decide (m ≤ amount t))
      | none => l)
      = l.filter (minOkSpec m) := by
  match m with
  | none => simp [minOkSpec, filter_true_of_all]
  | some m => rfl

theorem max_stage_eq (m : Option ℚ) (l : List Transaction) :
    (match m with
      | some m => l.filter (fun t => decide (amount t ≤ m))
      | none => l)
      = l.filter (maxOkSpec m) := by
  match m with
  | none => simp [maxOkSpec, filter_true_of_all]
  | some m => rfl

/-- The output list of `validate_and_filter` is exactly one filter of the
input by the conjunction of validation and the three configured filters. -/
theorem validate_and_filter_eq_filter (txs : List Transaction) (region : Option PyStr)
    (mn mx : Option ℚ) :
    (validate_and_filter txs region mn mx).1
      = txs.filter fun t =>
          validPred t && regionOkSpec region t && minOkSpec mn t && maxOkSpec mx t := by
  simp only [validate_and_filter]
  rw [splitValid_fst, region_stage_eq, min_stage_eq, max_stage_eq,
    filter_and_assoc, filter_and_assoc, filter_and_assoc]
  simp only [Bool.and_assoc]

theorem validate_and_filter_out_length_le (txs : List Transaction)
    (region : Option PyStr) (mn mx : Option ℚ) :
    (validate_and_filter txs region mn mx).1.length ≤ (txs.filter validPred).length := by
  rw [validate_and_filter_eq_filter]
  simp only [Bool.and_assoc]
  rw [← filter_and_assoc]
  exact List.length_filter_le _ _

/-- **C2.** A record appears in the list returned by `validate_and_filter` iff
it passes all five validation checks and every configured filter (exact
case-sensitive region equality, `Amount ≥ min_amount` when set,
`Amount ≤ max_amount` when set; an unset filter imposes no constraint), and
the output is a filter of the input, so relative order is preserved. -/
theorem claim_C2_validate_and_filter_membership (txs : List Transaction)
    (region : Option PyStr) (mn mx : Option ℚ) :
    ((validate_and_filter txs region mn mx).1
      = txs.filter fun t =>
          validPred t && regionOkSpec region t && minOkSpec mn t && maxOkSpec mx t)
    ∧ ∀ t : Transaction,
        t ∈ (validate_and_filter txs region mn mx).1
          ↔ t ∈ txs ∧ validPred t = true ∧ regionOkSpec region t = true
              ∧ minOkSpec mn t = true ∧ maxOkSpec mx t = true := by
  refine ⟨validate_and_filter_eq_filter txs region mn mx, fun t => ?_⟩
  rw [validate_and_filter_eq_filter]
  simp [List.mem_filter, and_assoc]

/-- **C10.** `validate_and_filter` conserves records: the invalid count plus
the number of records passing validation equals the input length; the summary
reports the input length and the returned list's length; and the returned
list is no longer than input minus invalid. -/
theorem claim_C10_validate_and_filter_conservation (txs : List Transaction)
    (region : Option PyStr) (mn mx : Option ℚ) :
    (validate_and_filter txs region mn mx).2.1 + (txs.filter validPred).length = txs.length
    ∧ (validate_and_filter txs region mn mx).2.2.total_input = txs.length
    ∧ (validate_and_filter txs region mn mx).2.2.invalid
        = (validate_and_filter txs region mn mx).2.1
    ∧ (validate_and_filter txs region mn mx).2.2.final_count
        = (validate_and_filter txs region mn mx).1.length
    ∧ (validate_and_filter txs region mn mx).1.length
        ≤ txs.length - (validate_and_filter txs region mn mx).2.1 := by
  have h₁ := splitValid_snd_add txs
  have h₂ : (validate_and_filter txs region mn mx).2.1 = (splitValid txs).2 := rfl
  have h₃ := validate_and_filter_out_length_le txs region mn mx
  exact ⟨by rw [h₂]; exact h₁, rfl, rfl, rfl, by omega⟩

theorem parseFields_isSome (L : List PyStr) :
    (parseFields L).isSome
      ↔ L.length = 8
        ∧ (pyInt (pyRemoveChar ',' (L.getD 4 []))).isSome
        ∧ (pyFloat (pyRemoveChar ',' (L.getD 5 []))).isSome := by
  rcases L with _ | ⟨p0, _ | ⟨p1, _ | ⟨p2, _ | ⟨p3, _ | ⟨p4, _ | ⟨p5, _ | ⟨p6, _ |
    ⟨p7, _ | ⟨p8, L⟩⟩⟩⟩⟩⟩⟩⟩⟩ <;>
    simp [parseFields]
  cases hq : pyInt (pyRemoveChar ',' p4) <;>
    cases hp : pyFloat (pyRemoveChar ',' p5) <;> simp [hq, hp]

theorem parseFields_fields (L : List PyStr) (tx : Transaction)
    (h : parseFields L = some tx) :
    tx.TransactionID = pyStrip (L.getD 0 [])
    ∧ tx.Date = pyStrip (L.getD 1 [])
    ∧ tx.ProductID = pyStrip (L.getD 2 [])
    ∧ tx.ProductName = pyStrip (pyReplaceChar ',' ' ' (L.getD 3 []))
    ∧ pyInt (pyRemoveChar ',' (L.getD 4 [])) = some tx.Quantity
    ∧ pyFloat (pyRemoveChar ',' (L.getD 5 [])) = some tx.UnitPrice
    ∧ tx.CustomerID = pyStrip (L.getD 6 [])
    ∧ tx.Region = pyStrip (L.getD 7 []) := by
  rcases L with _ | ⟨p0, _ | ⟨p1, _ | ⟨p2, _ | ⟨p3, _ | ⟨p4, _ | ⟨p5, _ | ⟨p6, _ |
    ⟨p7, _ | ⟨p8, L⟩⟩⟩⟩⟩⟩⟩⟩⟩ <;> simp [parseFields] at h
  rcases hq : pyInt (pyRemoveChar ',' p4) with _ | q <;> rw [hq] at h <;>
    rcases hp : pyFloat (pyRemoveChar ',' p5) with _ | up <;> rw [hp] at h <;>
      simp at h
  subst h
  simp [hq, hp]

/-- **C3.** The parser emits exactly one record per input line whose split on
`'|'` has exactly 8 fields and whose quantity / price fields (commas
stripped) convert numerically; all other lines are skipped silently
(`filterMap`, so relative order is preserved), with `ProductName`'s commas
replaced by spaces and all string fields trimmed. -/
theorem claim_C3_parse_transactions (lines : List PyStr) :
    parse_transactions lines = lines.filterMap parseLine
    ∧ (∀ line : PyStr,
        (parseLine line).isSome
          ↔ (pySplit '|' line).length = 8
            ∧ (pyInt (pyRemoveChar ',' ((pySplit '|' line).getD 4 []))).isSome
            ∧ (pyFloat (pyRemoveChar ',' ((pySplit '|' line).getD 5 []))).isSome)
    ∧ ∀ (line : PyStr) (tx : Transaction), parseLine line = some tx →
        tx.TransactionID = pyStrip ((pySplit '|' line).getD 0 [])
        ∧ tx.Date = pyStrip ((pySplit '|' line).getD 1 [])
        ∧ tx.ProductID = pyStrip ((pySplit '|' line).getD 2 [])
        ∧ tx.ProductName = pyStrip (pyReplaceChar ',' ' ' ((pySplit '|' line).getD 3 []))
        ∧ pyInt (pyRemoveChar ',' ((pySplit '|' line).getD 4 [])) = some tx.Quantity
        ∧ pyFloat (pyRemoveChar ',' ((pySplit '|' line).getD 5 [])) = some tx.UnitPrice
        ∧ tx.CustomerID = pyStrip ((pySplit '|' line).getD 6 [])
        ∧ tx.Region = pyStrip ((pySplit '|' line).getD 7 []) := by
  refine ⟨?_, fun line => parseFields_isSome (pySplit '|' line),
    fun line tx h => parseFields_fields (pySplit '|' line) tx h⟩
  induction lines with
  | nil => rfl
  | cons line rest ih =>
    cases h : parseLine line <;> simp [parse_transactions, h, ih]

/-- Concrete input line for evaluating the parser. -/
def c3line : PyStr := "T001|2024-01-01|P001|Widget,Pro|2|10.50|C001|North".toList

/-- The transaction the parser produces for `c3line`. -/
def c3tx : Transaction :=
  ⟨"T001".toList, "2024-01-01".toList, "P001".toList, "Widget Pro".toList,
    2, 21 / 2, "C001".toList, "North".toList⟩

theorem c3line_parses : parseLine c3line = some c3tx := by
  have hsplit : pySplit '|' c3line =
      ["T001".toList, "2024-01-01".toList, "P001".toList, "Widget,Pro".toList,
        "2".toList, "10.50".toList, "C001".toList, "North".toList] := by decide
  have hq : pyInt (pyRemoveChar ',' "2".toList) = some 2 := by decide
  have hp : pyFloat (pyRemoveChar ',' "10.50".toList)
      = some ((1 : ℚ) * (((10 : ℕ) : ℚ) + ((50 : ℕ) : ℚ) / (10 : ℚ) ^ (2 : ℕ))) := rfl
  rw [parseLine, hsplit]
  simp only [parseFields, hq, hp]
  simp only [Option.some.injEq, c3tx, Transaction.mk.injEq]
  refine ⟨by decide, by decide, by decide, by decide, by decide, ?_, by decide, by decide⟩
  norm_num

/-- Witness for C3: the field-content part of the parser theorem applied to a
concrete line (with an embedded comma in the product name and a decimal
price), with its hypothesis discharged by evaluation. -/
theorem claim_C3_witness :
    parseLine c3line = some c3tx
    ∧ (c3tx.TransactionID = pyStrip ((pySplit '|' c3line).getD 0 [])
        ∧ c3tx.Date = pyStrip ((pySplit '|' c3line).getD 1 [])
        ∧ c3tx.ProductID = pyStrip ((pySplit '|' c3line).getD 2 [])
        ∧ c3tx.ProductName = pyStrip (pyReplaceChar ',' ' ' ((pySplit '|' c3line).getD 3 []))
        ∧ pyInt (pyRemoveChar ',' ((pySplit '|' c3line).getD 4 [])) = some c3tx.Quantity
        ∧ pyFloat (pyRemoveChar ',' ((pySplit '|' c3line).getD 5 [])) = some c3tx.UnitPrice
        ∧ c3tx.CustomerID = pyStrip ((pySplit '|' c3line).getD 6 [])
        ∧ c3tx.Region = pyStrip ((pySplit '|' c3line).getD 7 [])) :=
  ⟨c3line_parses, (claim_C3_parse_transactions [c3line]).2.2 c3line c3tx c3line_parses⟩

/-- A record whose ProductID is `'P'` followed by non-digit characters. -/
def c6tx : Transaction :=
  ⟨"T001".toList, "2024-01-01".toList, "PABC".toList, "Widget".toList,
    2, 10, "C001".toList, "North".toList⟩

/-- **C6, counterexample.** A record with `ProductID = "PABC"` (no digits
after the `'P'`) is *not* excluded: validation keeps it, because the code only
tests the `'P'` prefix, never the digits. -/
theorem claim_C6_counterexample :
    c6tx.ProductID = "PABC".toList
    ∧ (validate_and_filter [c6tx] none none none).1 = [c6tx] := by
  constructor <;> decide

/-- **C6, amended.** Validation accepts any ProductID that starts with `'P'`
(digits are not required): a record passing the prefix tests, positivity
tests and non-emptiness tests is kept by `validate_and_filter` with no
filters configured, regardless of what follows the `'P'`. -/
theorem claim_C6_amended (tx : Transaction)
    (hT : pyStartsWith ['T'] tx.TransactionID = true)
    (hP : pyStartsWith ['P'] tx.ProductID = true)
    (hC : pyStartsWith ['C'] tx.CustomerID = true)
    (hQ : 0 < tx.Quantity) (hU : 0 < tx.UnitPrice) (hR : tx.Region ≠ []) :
    (validate_and_filter [tx] none none none).1 = [tx] := by
  have hCne : tx.CustomerID ≠ [] := by
    intro h
    rw [h] at hC
    simp [pyStartsWith, List.isPrefixOf] at hC
  have hv : validPred tx = true := by
    simp only [validPred, hT, hP, hC, Bool.and_true, Bool.true_and,
      Bool.and_eq_true, Bool.not_eq_true', decide_eq_false_iff_not, not_le,
      Bool.or_eq_false_iff, List.isEmpty_eq_false]
    exact ⟨⟨hQ, hU⟩, hCne, hR⟩
  simp [validate_and_filter, splitValid, hv, pyTruthyStr]

/-- Witness for the amended C6: the concrete `"PABC"` record satisfies all
hypotheses (its ProductID suffix is non-numeric) and is kept. -/
theorem claim_C6_witness :
    pyStartsWith ['T'] c6tx.TransactionID = true
    ∧ pyStartsWith ['P'] c6tx.ProductID = true
    ∧ pyStartsWith ['C'] c6tx.CustomerID = true
    ∧ 0 < c6tx.Quantity ∧ 0 < c6tx.UnitPrice ∧ c6tx.Region ≠ []
    ∧ (validate_and_filter [c6tx] none none none).1 = [c6tx] :=
  ⟨by decide, by decide, by decide, by decide, by norm_num [c6tx], by decide,
    claim_C6_amended c6tx (by decide) (by decide) (by decide) (by decide)
      (by norm_num [c6tx]) (by decide)⟩

/-- A catalog entry as built by `create_product_mapping` (field defaults
already applied). -/
structure CatalogInfo where
  title : PyStr
  category : PyStr
  brand : PyStr
  rating : ℚ
deriving DecidableEq, Repr

/-- An enriched transaction: the eight transaction fields plus the API
metadata fields (`None`-able) and the match flag. -/
structure EnrichedTransaction where
  TransactionID : PyStr
  Date : PyStr
  ProductID : PyStr
  ProductName : PyStr
  Quantity : Int
  UnitPrice : ℚ
  CustomerID : PyStr
  Region : PyStr
  API_Category : Option PyStr
  API_Brand : Option PyStr
  API_Rating : Option ℚ
  API_Match : Bool
deriving DecidableEq, Repr

/-- The numeric catalog key derived in `enrich_sales_data`:
`int(tx['ProductID'][1:])`, with the bare `except` giving the sentinel `-1`. -/
def enrichKey (tx : Transaction) : Int :=
  (pyInt (tx.ProductID.drop 1)).getD (-1)

/-- One iteration of the `enrich_sales_data` loop body: copy the transaction
and add the API fields from the catalog mapping (hit) or nulls (miss). -/
def enrichOne (product_mapping : List (Int × CatalogInfo)) (tx : Transaction) :
    EnrichedTransaction :=
  match product_mapping.lookup (enrichKey tx) with
  | some info =>
    { TransactionID := tx.TransactionID, Date := tx.Date, ProductID := tx.ProductID
      ProductName := tx.ProductName, Quantity := tx.Quantity, UnitPrice := tx.UnitPrice
      CustomerID := tx.CustomerID, Region := tx.Region
      API_Category := some info.category, API_Brand := some info.brand
      API_Rating := some info.rating, API_Match := true }
  | none =>
    { TransactionID := tx.TransactionID, Date := tx.Date, ProductID := tx.ProductID
      ProductName := tx.ProductName, Quantity := tx.Quantity, UnitPrice := tx.UnitPrice
      CustomerID := tx.CustomerID, Region := tx.Region
      API_Category := none, API_Brand := none
      API_Rating := none, API_Match := false }

/-- `enrich_sales_data(transactions, product_mapping)`: enrich each
transaction in order. -/
def enrich_sales_data (transactions : List Transaction)
    (product_mapping : List (Int × CatalogInfo)) : List EnrichedTransaction :=
  match transactions with
  | [] => []
  | tx :: rest => enrichOne product_mapping tx :: enrich_sales_data rest product_mapping

/-- **C4.** Enrichment is total and order-preserving (a `map`, hence exactly
one output per input in the same order); on a catalog hit it copies
category/brand/rating and sets `API_Match = true`, on a miss it sets the
three API fields to null and `API_Match = false`; and the eight original
transaction fields are always carried over unchanged. -/
theorem claim_C4_enrich_sales_data (txs : List Transaction)
    (m : List (Int × CatalogInfo)) :
    enrich_sales_data txs m = txs.map (enrichOne m)
    ∧ (enrich_sales_data txs m).length = txs.length
    ∧ ∀ tx : Transaction,
        (enrichOne m tx).API_Category = (m.lookup (enrichKey tx)).map CatalogInfo.category
        ∧ (enrichOne m tx).API_Brand = (m.lookup (enrichKey tx)).map CatalogInfo.brand
        ∧ (enrichOne m tx).API_Rating = (m.lookup (enrichKey tx)).map CatalogInfo.rating
        ∧ (enrichOne m tx).API_Match = (m.lookup (enrichKey tx)).isSome
        ∧ (enrichOne m tx).TransactionID = tx.TransactionID
        ∧ (enrichOne m tx).Date = tx.Date
        ∧ (enrichOne m tx).ProductID = tx.ProductID
        ∧ (enrichOne m tx).ProductName = tx.ProductName
        ∧ (enrichOne m tx).Quantity = tx.Quantity
        ∧ (enrichOne m tx).UnitPrice = tx.UnitPrice
        ∧ (enrichOne m tx).CustomerID = tx.CustomerID
        ∧ (enrichOne m tx).Region = tx.Region := by
  have hmap : enrich_sales_data txs m = txs.map (enrichOne m) := by
    induction txs with
    | nil => rfl
    | cons tx rest ih => simp [enrich_sales_data, ih]
  refine ⟨hmap, by rw [hmap]; exact List.length_map _ _, fun tx => ?_⟩
  cases h : m.lookup (enrichKey tx) <;> simp [enrichOne, h]

/-- Concrete catalog entry for the enrichment counterexample and witness. -/
def c7info : CatalogInfo :=
  ⟨"Gadget".toList, "tools".toList, "Acme".toList, 4⟩

/-- Concrete transaction whose ProductID has a non-numeric suffix. -/
def c7tx : Transaction :=
  ⟨"T002".toList, "2024-01-02".toList, "PABC".toList, "Widget".toList,
    1, 5, "C002".toList, "South".toList⟩

/-- **C7, counterexample.** The sentinel key `-1` is *not* guaranteed to miss
for every catalog mapping: against a mapping that contains the key `-1`, a
transaction whose ProductID lacks a numeric suffix gets `API_Match = true`. -/
theorem claim_C7_counterexample :
    pyInt (c7tx.ProductID.drop 1) = none
    ∧ (enrichOne [((-1 : Int), c7info)] c7tx).API_Match = true := by
  constructor <;> decide

/-- **C7, amended.** For a transaction whose ProductID lacks a valid numeric
suffix, enrichment uses the sentinel key `-1` and never raises; provided the
mapping has no entry with key `-1` (as is the case for any mapping built
from real catalog ids), the result is unmatched with null API fields. -/
theorem claim_C7_amended (m : List (Int × CatalogInfo)) (tx : Transaction)
    (hbad : pyInt (tx.ProductID.drop 1) = none)
    (hm : m.lookup (-1 : Int) = none) :
    enrichKey tx = -1
    ∧ (enrichOne m tx).API_Match = false
    ∧ (enrichOne m tx).API_Category = none
    ∧ (enrichOne m tx).API_Brand = none
    ∧ (enrichOne m tx).API_Rating = none
    ∧ enrich_sales_data [tx] m = [enrichOne m tx] := by
  have hk : enrichKey tx = -1 := by unfold enrichKey; rw [hbad]; rfl
  refine ⟨hk, ?_, ?_, ?_, ?_, rfl⟩ <;> simp [enrichOne, hk, hm]

/-- Witness for the amended C7: the `"PABC"` transaction against a mapping
whose only key is `1`. -/
theorem claim_C7_witness :
    pyInt (c7tx.ProductID.drop 1) = none
    ∧ List.lookup (-1 : Int) [((1 : Int), c7info)] = none
    ∧ enrichKey c7tx = -1
    ∧ (enrichOne [((1 : Int), c7info)] c7tx).API_Match = false
    ∧ (enrichOne [((1 : Int), c7info)] c7tx).API_Category = none
    ∧ (enrichOne [((1 : Int), c7info)] c7tx).API_Brand = none
    ∧ (enrichOne [((1 : Int), c7info)] c7tx).API_Rating = none
    ∧ enrich_sales_data [c7tx] [((1 : Int), c7info)]
        = [enrichOne [((1 : Int), c7info)] c7tx] :=
  ⟨by decide, by decide,
    (claim_C7_amended [((1 : Int), c7info)] c7tx (by decide) (by decide)).1,
    (claim_C7_amended [((1 : Int), c7info)] c7tx (by decide) (by decide)).2.1,
    (claim_C7_amended [((1 : Int), c7info)] c7tx (by decide) (by decide)).2.2.1,
    (claim_C7_amended [((1 : Int), c7info)] c7tx (by decide) (by decide)).2.2.2.1,
    (claim_C7_amended [((1 : Int), c7info)] c7tx (by decide) (by decide)).2.2.2.2.1,
    (claim_C7_amended [((1 : Int), c7info)] c7tx (by decide) (by decide)).2.2.2.2.2⟩

/-- `calculate_total_revenue(transactions)`: sum of `Quantity * UnitPrice`. -/
def calculate_total_revenue (transactions : List Transaction) : ℚ :=
  (transactions.map amount).sum

/-- Per-region accumulator of `region_wise_sales` (before percentages). -/
structure RegionAcc where
  total_sales : ℚ
  transaction_count : Nat
deriving DecidableEq, Repr

/-- Dict update step of the `region_wise_sales` loop: create the entry on
first sight (in insertion order) and add the revenue / bump the count. -/
def updateRegion (stats : List (PyStr × RegionAcc)) (region : PyStr) (rev : ℚ) :
    List (PyStr × RegionAcc) :=
  match stats with
  | [] => [(region, ⟨rev, 1⟩)]
  | (k, a) :: rest =>
    if k = region then (k, ⟨a.total_sales + rev, a.transaction_count + 1⟩) :: rest
    else (k, a) :: updateRegion rest region rev

/-- The accumulation loop of `region_wise_sales`. -/
def regionAccum (transactions : List Transaction) : List (PyStr × RegionAcc) :=
  transactions.foldl (fun stats t => updateRegion stats t.Region (amount t)) []

/-- Per-region statistics of `region_wise_sales` (with percentage). -/
structure RegionStat where
  total_sales : ℚ
  transaction_count : Nat
  percentage : ℚ
deriving DecidableEq, Repr

/-- Left-to-right effectful map over `Option`, modelling a Python loop whose
body may raise: the first raise (`none`) aborts the whole computation. -/
def mapMOpt {α β : Type} (f : α → Option β) : List α → Option (List β)
  | [] => some []
  | a :: l =>
    match f a, mapMOpt f l with
    | some b, some bs => some (b :: bs)
    | _, _ => none

/-- The percentage-attaching step of the `region_wise_sales` loop
(`round(total_sales / total_rev * 100, 2)`, an unguarded division, so `none`
models the `ZeroDivisionError` when total revenue is zero). -/
def regionPct (total_rev : ℚ) (p : PyStr × RegionAcc) :
    Option (PyStr × RegionStat) :=
  (pydiv p.2.total_sales total_rev).map fun q =>
    (p.1, RegionStat.mk p.2.total_sales p.2.transaction_count (pyRound2 (q * 100)))

/-- `region_wise_sales(transactions)`: accumulate per-region totals and
counts, attach the percentage of total revenue, round it to two decimals,
and sort by descending total sales (Python's stable
`sorted(..., reverse=True)`). -/
def region_wise_sales (transactions : List Transaction) :
    Option (List (PyStr × RegionStat)) :=
  let total_rev := calculate_total_revenue transactions
  let stats := regionAccum transactions
  (mapMOpt (regionPct total_rev) stats).map fun l =>
    l.insertionSort fun a b => b.2.total_sales ≤ a.2.total_sales

/-- The guarded average-order-value computation of `generate_sales_report`
(`total_rev / total_tx if total_tx > 0 else 0`). -/
def reportAvgOrder (transactions : List Transaction) : Option ℚ :=
  if 0 < transactions.length then
    pydiv (calculate_total_revenue transactions) (transactions.length : ℚ)
  else some 0

/-- The guarded API success-rate computation of `generate_sales_report`
(`total_enriched / len(enriched) * 100 if enriched_transactions else 0`). -/
def apiSuccessRate (total_enriched : Nat) (enriched : List EnrichedTransaction) :
    Option ℚ :=
  if enriched.isEmpty then some 0
  else (pydiv (total_enriched : ℚ) (enriched.length : ℚ)).map (· * 100)

/-- Per-customer accumulator of `customer_analysis`. -/
structure CustAcc where
  total_spent : ℚ
  purchase_count : Nat
  products_bought : List PyStr
deriving DecidableEq, Repr

/-- Python `set.add`, on a set modelled as a duplicate-free list in insertion
order. -/
def addMem (s : List PyStr) (x : PyStr) : List PyStr :=
  if x ∈ s then s else s ++ [x]

/-- Dict update step of the `customer_analysis` loop. -/
def updateCust (stats : List (PyStr × CustAcc)) (cid : PyStr) (spent : ℚ)
    (pname : PyStr) : List (PyStr × CustAcc) :=
  match stats with
  | [] => [(cid, ⟨spent, 1, [pname]⟩)]
  | (k, a) :: rest =>
    if k = cid then
      (k, ⟨a.total_spent + spent, a.purchase_count + 1, addMem a.products_bought pname⟩)
        :: rest
    else (k, a) :: updateCust rest cid spent pname

/-- The accumulation loop of `customer_analysis`. -/
def custAccum (transactions : List Transaction) : List (PyStr × CustAcc) :=
  transactions.foldl (fun stats t => updateCust stats t.CustomerID (amount t) t.ProductName) []

/-- Per-customer statistics of `customer_analysis`. -/
structure CustStat where
  total_spent : ℚ
  purchase_count : Nat
  products_bought : List PyStr
  avg_order_value : ℚ
deriving DecidableEq, Repr

/-- `customer_analysis(transactions)`: accumulate per-customer spend, count
and product set, attach the rounded average order value
(`total_spent / purchase_count`, a float division modelled via `pydiv`),
sort the product set, and order customers by descending total spend. -/
def customer_analysis (transactions : List Transaction) :
    Option (List (PyStr × CustStat)) :=
  (mapMOpt (fun p =>
      (pydiv p.2.total_spent (p.2.purchase_count : ℚ)).map fun q =>
        (p.1, CustStat.mk p.2.total_spent p.2.purchase_count
          (p.2.products_bought.insertionSort fun a b => pyStrLe a b)
          (pyRound2 q)))
    (custAccum transactions)).map fun l =>
      l.insertionSort fun a b => b.2.total_spent ≤ a.2.total_spent

/-! ### Division-guard lemmas (C5) and region-total lemmas (C8) -/

theorem mapMOpt_isSome {α β : Type} (f : α → Option β) (l : List α)
    (h : ∀ a ∈ l, (f a).isSome) : (mapMOpt f l).isSome := by
  induction l with
  | nil => rfl
  | cons a l ih =>
    obtain ⟨b, hb⟩ := Option.isSome_iff_exists.mp (h a (by simp))
    obtain ⟨bs, hbs⟩ :=
      Option.isSome_iff_exists.mp (ih fun x hx => h x (by simp [hx]))
    simp [mapMOpt, hb, hbs]

theorem pydiv_isSome (a : ℚ) {b : ℚ} (hb : b ≠ 0) : (pydiv a b).isSome := by
  simp [pydiv, hb]

theorem updateCust_count_pos (stats : List (PyStr × CustAcc)) (cid : PyStr)
    (spent : ℚ) (pname : PyStr)
    (h : ∀ p ∈ stats, 0 < p.2.purchase_count) :
    ∀ p ∈ updateCust stats cid spent pname, 0 < p.2.purchase_count := by
  induction stats with
  | nil =>
    intro p hp
    simp [updateCust] at hp
    subst hp
    simp
  | cons q rest ih =>
    intro p hp
    rw [show q = (q.1, q.2) from rfl] at hp
    simp only [updateCust] at hp
    by_cases hk : q.1 = cid
    · rw [if_pos hk] at hp
      rcases List.mem_cons.mp hp with h₁ | h₁
      · subst h₁; simp
      · exact h p (List.mem_cons_of_mem _ h₁)
    · rw [if_neg hk] at hp
      rcases List.mem_cons.mp hp with h₁ | h₁
      · subst h₁; exact h (q.1, q.2) (by simp)
      · exact ih (fun r hr => h r (List.mem_cons_of_mem _ hr)) p h₁

theorem custAccum_count_pos (txs : List Transaction) :
    ∀ p ∈ custAccum txs, 0 < p.2.purchase_count := by
  suffices H : ∀ (txs : List Transaction) (stats : List (PyStr × CustAcc)),
      (∀ p ∈ stats, 0 < p.2.purchase_count) →
      ∀ p ∈ txs.foldl
          (fun stats t => updateCust stats t.CustomerID (amount t) t.ProductName) stats,
        0 < p.2.purchase_count by
    exact H txs [] (by simp)
  intro txs
  induction txs with
  | nil => intro stats h; rw [List.foldl_nil]; exact h
  | cons t ts ih =>
    intro stats h
    rw [List.foldl_cons]
    exact ih _ (updateCust_count_pos stats t.CustomerID (amount t) t.ProductName h)

theorem customer_analysis_isSome (txs : List Transaction) :
    (customer_analysis txs).isSome := by
  rw [customer_analysis, Option.isSome_map']
  apply mapMOpt_isSome
  intro p hp
  rw [Option.isSome_map']
  exact pydiv_isSome _ (by
    have := custAccum_count_pos txs p hp
    positivity)

theorem reportAvgOrder_isSome (txs : List Transaction) :
    (reportAvgOrder txs).isSome := by
  rw [reportAvgOrder]
  by_cases h : 0 < txs.length
  · rw [if_pos h]
    exact pydiv_isSome _ (by positivity)
  · rw [if_neg h]; rfl

theorem apiSuccessRate_isSome (n : Nat) (etxs : List EnrichedTransaction) :
    (apiSuccessRate n etxs).isSome := by
  rw [apiSuccessRate]
  by_cases h : etxs.isEmpty
  · rw [if_pos h]; rfl
  · rw [if_neg h, Option.isSome_map']
    refine pydiv_isSome _ ?_
    have : etxs ≠ [] := by simpa using h
    have : 0 < etxs.length := List.length_pos.mpr this
    positivity

theorem region_wise_sales_isSome (txs : List Transaction)
    (h : calculate_total_revenue txs ≠ 0) : (region_wise_sales txs).isSome := by
  rw [region_wise_sales, Option.isSome_map']
  apply mapMOpt_isSome
  intro p _
  rw [regionPct, Option.isSome_map']
  exact pydiv_isSome _ h

/-- A record with zero amount: its list has zero total revenue but a
non-empty region dict. -/
def c5tx : Transaction :=
  ⟨"T003".toList, "2024-01-03".toList, "P001".toList, "Widget".toList,
    0, 10, "C001".toList, "North".toList⟩

/-- **C5, counterexample.** The region-percentage division is *not* guarded:
on a non-empty transaction list whose total revenue is zero,
`region_wise_sales` hits `0.0 / 0.0` and raises `ZeroDivisionError`
(modelled as `none`). -/
theorem claim_C5_counterexample : region_wise_sales [c5tx] = none := by
  have htot : calculate_total_revenue [c5tx] = 0 := by
    norm_num [calculate_total_revenue, amount, c5tx]
  have hamt : amount c5tx = 0 := by norm_num [amount, c5tx]
  simp [region_wise_sales, regionAccum, updateRegion, htot, hamt, regionPct,
    mapMOpt, pydiv]

/-- **C5, amended.** The average order value, API success rate and
per-customer average order value are guarded (they never raise, returning 0
for an empty denominator set, the customer purchase count being structurally
positive); the region percentage is unguarded but only divides by the total
revenue: `region_wise_sales` returns without raising on the empty list and
on every list with nonzero total revenue, and the remaining case (non-empty
list, zero total revenue) is exactly the counterexample. -/
theorem claim_C5_division_guards :
    (∀ txs : List Transaction, (reportAvgOrder txs).isSome)
    ∧ (∀ (n : Nat) (etxs : List EnrichedTransaction), (apiSuccessRate n etxs).isSome)
    ∧ (∀ txs : List Transaction, (customer_analysis txs).isSome)
    ∧ region_wise_sales [] = some []
    ∧ ∀ txs : List Transaction,
        calculate_total_revenue txs ≠ 0 → (region_wise_sales txs).isSome :=
  ⟨reportAvgOrder_isSome, apiSuccessRate_isSome, customer_analysis_isSome,
    rfl, region_wise_sales_isSome⟩

/-- A record with nonzero amount, for the C5 witness. -/
def c5wtx : Transaction :=
  ⟨"T004".toList, "2024-01-04".toList, "P002".toList, "Gadget".toList,
    2, 10, "C002".toList, "South".toList⟩

/-- Witness for C5: a concrete list with nonzero total revenue on which
`region_wise_sales` returns without raising. -/
theorem claim_C5_witness :
    calculate_total_revenue [c5wtx] ≠ 0 ∧ (region_wise_sales [c5wtx]).isSome := by
  have h : calculate_total_revenue [c5wtx] ≠ 0 := by
    norm_num [calculate_total_revenue, amount, c5wtx]
  exact ⟨h, claim_C5_division_guards.2.2.2.2 [c5wtx] h⟩

theorem updateRegion_sum (stats : List (PyStr × RegionAcc)) (r : PyStr) (rev : ℚ) :
    ((updateRegion stats r rev).map fun p => p.2.total_sales).sum
      = ((stats.map fun p => p.2.total_sales).sum) + rev := by
  induction stats with
  | nil => simp [updateRegion]
  | cons q rest ih =>
    rw [show q = (q.1, q.2) from rfl]
    simp only [updateRegion]
    by_cases hk : q.1 = r
    · rw [if_pos hk]; simp; ring
    · rw [if_neg hk]; simp [ih]; ring

theorem foldl_updateRegion_sum (txs : List Transaction)
    (stats : List (PyStr × RegionAcc)) :
    (((txs.foldl (fun stats t => updateRegion stats t.Region (amount t)) stats).map
        fun p => p.2.total_sales).sum)
      = ((stats.map fun p => p.2.total_sales).sum) + calculate_total_revenue txs := by
  induction txs generalizing stats with
  | nil => simp [calculate_total_revenue]
  | cons t ts ih =>
    rw [List.foldl_cons, ih, updateRegion_sum]
    simp [calculate_total_revenue]
    ring

theorem regionAccum_sum (txs : List Transaction) :
    ((regionAccum txs).map fun p => p.2.total_sales).sum
      = calculate_total_revenue txs := by
  have := foldl_updateRegion_sum txs []
  simpa [regionAccum] using this

theorem regionPct_total_sales (tr : ℚ) (p : PyStr × RegionAcc)
    (b : PyStr × RegionStat) (h : regionPct tr p = some b) :
    b.2.total_sales = p.2.total_sales := by
  rw [regionPct] at h
  cases hd : pydiv p.2.total_sales tr with
  | none => rw [hd] at h; simp at h
  | some q =>
    rw [hd] at h
    simp only [Option.map_some', Option.some.injEq] at h
    rw [← h]

theorem mapMOpt_map_eq {α β γ : Type} (f : α → Option β) (g : α → γ) (g' : β → γ)
    (hf : ∀ a b, f a = some b → g' b = g a) :
    ∀ (l : List α) (l' : List β), mapMOpt f l = some l' → l'.map g' = l.map g := by
  intro l
  induction l with
  | nil => intro l' h; simp [mapMOpt] at h; subst h; rfl
  | cons a l ih =>
    intro l' h
    simp only [mapMOpt] at h
    cases ha : f a with
    | none => rw [ha] at h; simp at h
    | some b =>
      rw [ha] at h
      cases hl : mapMOpt f l with
      | none => rw [hl] at h; simp at h
      | some bs =>
        rw [hl] at h
        simp only [Option.some.injEq] at h
        subst h
        simp [hf a b ha, ih bs hl]

/-- **C8.** Whenever `region_wise_sales` returns (does not raise), the sum of
the per-region `total_sales` values equals `calculate_total_revenue` of the
same list exactly, and the entries are ordered by descending `total_sales`. -/
theorem claim_C8_region_totals (txs : List Transaction)
    (out : List (PyStr × RegionStat)) (h : region_wise_sales txs = some out) :
    ((out.map fun p => p.2.total_sales).sum = calculate_total_revenue txs)
    ∧ out.Pairwise fun a b => b.2.total_sales ≤ a.2.total_sales := by
  rw [region_wise_sales] at h
  obtain ⟨l, hl, hout⟩ := Option.map_eq_some'.mp h
  subst hout
  constructor
  · have hperm :
        List.Perm
          ((l.insertionSort fun a b => b.2.total_sales ≤ a.2.total_sales).map
            fun p => p.2.total_sales)
          (l.map fun p => p.2.total_sales) :=
      (List.perm_insertionSort _ l).map _
    rw [hperm.sum_eq]
    rw [mapMOpt_map_eq (regionPct (calculate_total_revenue txs))
      (fun p => p.2.total_sales) (fun p => p.2.total_sales)
      (fun a b hab => regionPct_total_sales _ a b hab) (regionAccum txs) l hl]
    exact regionAccum_sum txs
  · haveI : IsTotal (PyStr × RegionStat)
        (fun a b => b.2.total_sales ≤ a.2.total_sales) := ⟨fun a b => le_total _ _⟩
    haveI : IsTrans (PyStr × RegionStat)
        (fun a b => b.2.total_sales ≤ a.2.total_sales) :=
      ⟨fun _ _ _ h₁ h₂ => le_trans h₂ h₁⟩
    exact List.sorted_insertionSort _ l

/-- Transaction for the C8 witness (single region, amount 20). -/
def c8tx : Transaction :=
  ⟨"T005".toList, "2024-01-05".toList, "P003".toList, "Widget".toList,
    2, 10, "C003".toList, "North".toList⟩

theorem c8tx_region_eval :
    region_wise_sales [c8tx] = some [("North".toList, RegionStat.mk 20 1 100)] := by
  have hamt : amount c8tx = 20 := by norm_num [amount, c8tx]
  have htot : calculate_total_revenue [c8tx] = 20 := by
    norm_num [calculate_total_revenue, amount, c8tx]
  have hpct : regionPct 20 ("North".toList, RegionAcc.mk 20 1)
      = some ("North".toList, RegionStat.mk 20 1 100) := by
    have hdv : pydiv (20 : ℚ) 20 = some 1 := by norm_num [pydiv]
    have hfl : (⌊(100 : ℚ) * 100⌋ : ℤ) = 10000 := by norm_num
    have hrd : pyRound2 ((1 : ℚ) * 100) = 100 := by
      rw [pyRound2, roundHalfEven]
      norm_num
    rw [regionPct]
    simp only [hdv, Option.map_some', hrd]
  rw [region_wise_sales]
  simp only [htot]
  have hacc : regionAccum [c8tx] = [("North".toList, RegionAcc.mk 20 1)] := by
    have h₀ : regionAccum [c8tx] = [(c8tx.Region, RegionAcc.mk (amount c8tx) 1)] := by
      simp [regionAccum, updateRegion]
    rw [h₀, hamt]
    rfl
  rw [hacc]
  simp only [mapMOpt, hpct, Option.map_some']
  simp [List.insertionSort]

/-- Witness for C8: on a concrete one-record list, `region_wise_sales`
returns, the region totals sum to the total revenue, and the output is
sorted. -/
theorem claim_C8_witness :
    region_wise_sales [c8tx] = some [("North".toList, RegionStat.mk 20 1 100)]
    ∧ (([("North".toList, RegionStat.mk 20 1 100)].map fun p => p.2.total_sales).sum
        = calculate_total_revenue [c8tx])
    ∧ List.Pairwise (fun a b => b.2.total_sales ≤ a.2.total_sales)
        [("North".toList, RegionStat.mk 20 1 100)] :=
  ⟨c8tx_region_eval,
    (claim_C8_region_totals [c8tx] _ c8tx_region_eval).1,
    (claim_C8_region_totals [c8tx] _ c8tx_region_eval).2⟩

/-! ### The remaining aggregators and the report-data gathering (C1) -/

/-- Per-product accumulator of `top_selling_products`. -/
structure ProdAcc where
  qty : Int
  rev : ℚ
deriving DecidableEq, Repr

/-- Dict update step of the `top_selling_products` loop. -/
def updateProd (data : List (PyStr × ProdAcc)) (name : PyStr) (q : Int) (r : ℚ) :
    List (PyStr × ProdAcc) :=
  match data with
  | [] => [(name, ⟨q, r⟩)]
  | (k, a) :: rest =>
    if k = name then (k, ⟨a.qty + q, a.rev + r⟩) :: rest
    else (k, a) :: updateProd rest name q r

/-- `top_selling_products(transactions, n)`: per-product quantity and
revenue, sorted by descending quantity (stable), truncated to `n`. -/
def top_selling_products (transactions : List Transaction) (n : Nat) :
    List (PyStr × Int × ℚ) :=
  (((transactions.foldl
        (fun data t => updateProd data t.ProductName t.Quantity (amount t)) []).map
      fun p => (p.1, p.2.qty, p.2.rev)).insertionSort
    fun a b => b.2.1 ≤ a.2.1).take n

/-- Dict update step of the `low_performing_products` loop (quantities only). -/
def updateQty (data : List (PyStr × Int)) (name : PyStr) (q : Int) :
    List (PyStr × Int) :=
  match data with
  | [] => [(name, q)]
  | (k, a) :: rest =>
    if k = name then (k, a + q) :: rest
    else (k, a) :: updateQty rest name q

/-- `low_performing_products(transactions, threshold)`: products with total
quantity strictly below the threshold, ascending by quantity. -/
def low_performing_products (transactions : List Transaction) (threshold : Int) :
    List (PyStr × Int) :=
  ((transactions.foldl (fun data t => updateQty data t.ProductName t.Quantity) []).filter
      fun p => decide (p.2 < threshold)).insertionSort
    fun a b => a.2 ≤ b.2

/-- Per-date accumulator of `daily_sales_trend` (customer set as a
duplicate-free list in insertion order). -/
structure DayAcc where
  revenue : ℚ
  transaction_count : Nat
  unique_customers : List PyStr
deriving DecidableEq, Repr

/-- Per-date statistics of `daily_sales_trend` (revenue rounded, customer
set collapsed to its size). -/
structure DayStat where
  revenue : ℚ
  transaction_count : Nat
  unique_customers : Nat
deriving DecidableEq, Repr

/-- Dict update step of the `daily_sales_trend` loop. -/
def updateDay (trend : List (PyStr × DayAcc)) (date : PyStr) (rev : ℚ)
    (cid : PyStr) : List (PyStr × DayAcc) :=
  match trend with
  | [] => [(date, ⟨rev, 1, [cid]⟩)]
  | (k, a) :: rest =>
    if k = date then
      (k, ⟨a.revenue + rev, a.transaction_count + 1, addMem a.unique_customers cid⟩)
        :: rest
    else (k, a) :: updateDay rest date rev cid

/-- `daily_sales_trend(transactions)`: per-date revenue (rounded),
transaction count and distinct-customer count, ordered by ascending
date string (`sorted(trend.keys())`; keys are distinct). -/
def daily_sales_trend (transactions : List Transaction) : List (PyStr × DayStat) :=
  ((transactions.foldl
      (fun trend t => updateDay trend t.Date (amount t) t.CustomerID) []).insertionSort
    fun a b => pyStrLe a.1 b.1).map
    fun p => (p.1, ⟨pyRound2 p.2.revenue, p.2.transaction_count, p.2.unique_customers.length⟩)

/-- Python `max(iterable, key=...)` on a trend dict: the first entry of
maximal revenue; `none` models the `ValueError` on an empty iterable (the
source instead returns `None` via its explicit emptiness guard). -/
def maxByRevenue : List (PyStr × DayStat) → Option (PyStr × DayStat)
  | [] => none
  | x :: xs => some (xs.foldl (fun best y => if best.2.revenue < y.2.revenue then y else best) x)

/-- `find_peak_sales_day(transactions)`: the date of maximal revenue with its
revenue and count, or `None` for an empty trend. -/
def find_peak_sales_day (transactions : List Transaction) :
    Option (PyStr × ℚ × Nat) :=
  (maxByRevenue (daily_sales_trend transactions)).map
    fun p => (p.1, p.2.revenue, p.2.transaction_count)

/-- Python `min(strings)`: first minimum, lexicographic. -/
def pyMinStr (d : PyStr) (ds : List PyStr) : PyStr :=
  ds.foldl (fun best y => if pyStrLt y best then y else best) d

/-- Python `max(strings)`: first maximum, lexicographic. -/
def pyMaxStr (d : PyStr) (ds : List PyStr) : PyStr :=
  ds.foldl (fun best y => if pyStrLt best y then y else best) d

/-- The date-range string of the report:
`f"{min(dates)} to {max(dates)}" if dates else "N/A"`. -/
def dateRangeStr (dates : List PyStr) : PyStr :=
  match dates with
  | [] => "N/A".toList
  | d :: ds => pyMinStr d ds ++ " to ".toList ++ pyMaxStr d ds

/-- The data gathered by `generate_sales_report` before rendering. -/
structure ReportData where
  total_rev : ℚ
  total_tx : Nat
  avg_order : ℚ
  date_range : PyStr
  reg_stats : List (PyStr × RegionStat)
  top_prods : List (PyStr × Int × ℚ)
  trend : List (PyStr × DayStat)
  peak_day : PyStr
  peak_rev : ℚ
  low_prods : List (PyStr × Int)
  total_enriched : Nat
  success_rate : ℚ
  failed_products : List PyStr
deriving DecidableEq, Repr

/-- The data-gathering phase of `generate_sales_report` (source lines
188-203).  `none` models an uncaught exception; in particular the unpacking
`peak_day, peak_rev, _ = find_peak_sales_day(transactions)` raises
`TypeError` when `find_peak_sales_day` returns `None`, i.e. exactly when the
transaction list is empty. -/
def gatherReportData (transactions : List Transaction)
    (enriched_transactions : List EnrichedTransaction) : Option ReportData := do
  let total_rev := calculate_total_revenue transactions
  let total_tx := transactions.length
  let avg_order ← reportAvgOrder transactions
  let dates := transactions.map fun t => t.Date
  let date_range := dateRangeStr dates
  let reg_stats ← region_wise_sales transactions
  let top_prods := top_selling_products transactions 5
  let trend := daily_sales_trend transactions
  let (peak_day, peak_rev, _) ← find_peak_sales_day transactions
  let low_prods := low_performing_products transactions 10
  let total_enriched := (enriched_transactions.filter fun t => t.API_Match).length
  let success_rate ← apiSuccessRate total_enriched enriched_transactions
  let failed_products :=
    (((enriched_transactions.filter fun t => !t.API_Match).map
        fun t => t.ProductName).dedup).insertionSort fun a b => pyStrLe a b
  pure ⟨total_rev, total_tx, avg_order, date_range, reg_stats, top_prods, trend,
    peak_day, peak_rev, low_prods, total_enriched, success_rate, failed_products⟩

/-- **C1.** On an empty transaction list the report is *not* produced: the
gathering phase raises (`none`), because `find_peak_sales_day` returns
`None` and `generate_sales_report` unconditionally unpacks it as a 3-tuple
(a `TypeError`), despite the explicit empty-input guards on the average
order value, date range and success rate. -/
theorem claim_C1_empty_report_raises : gatherReportData [] [] = none := by
  rfl

/-! ### Saving the enriched dataset (C9) -/

/-- Models Python `str(i)` on an int: optional minus sign and decimal digits. -/
def pyStrOfInt (i : Int) : PyStr :=
  (if i < 0 then ['-'] else []) ++ Nat.toDigits 10 i.natAbs

/-- Decimal digits of the proper fraction `num / den` (`num < den`), by long
division, with fuel.  Stops when the remainder is zero. -/
def decimalFracDigits (fuel num den : Nat) : List Char :=
  match fuel with
  | 0 => []
  | fuel + 1 =>
    if num = 0 then []
    else Char.ofNat ('0'.toNat + num * 10 / den) :: decimalFracDigits fuel (num * 10 % den) den

/-- Models Python `str(x)` on a float value, here an exact rational: sign,
integer part, `'.'`, fractional digits (`".0"` for a whole number).  Float
values are dyadic, so their exact decimal expansion is finite; the model
caps the expansion at 64 digits (beyond any float's shortest repr).  The
round-trip claims depend only on the rendered text, not its digits. -/
def pyStrOfFloat (q : ℚ) : PyStr :=
  let sgn : PyStr := if q < 0 then ['-'] else []
  let n := q.num.natAbs
  let d := q.den
  sgn ++ Nat.toDigits 10 (n / d) ++
    '.' :: (if n % d = 0 then ['0'] else decimalFracDigits 64 (n % d) d)

/-- Models `str(tx.get(h, "None"))` for a `None`-able string field. -/
def renderOptStr : Option PyStr → PyStr
  | some s => s
  | none => "None".toList

/-- Models `str(tx.get(h, "None"))` for a `None`-able float field. -/
def renderOptFloat : Option ℚ → PyStr
  | some q => pyStrOfFloat q
  | none => "None".toList

/-- Models Python `str(b)` on a bool: `"True"` / `"False"`. -/
def renderBool (b : Bool) : PyStr :=
  if b then "True".toList else "False".toList

/-- The fixed 12-column header list of `save_enriched_data`. -/
def headersList : List PyStr :=
  ["TransactionID".toList, "Date".toList, "ProductID".toList, "ProductName".toList,
    "Quantity".toList, "UnitPrice".toList, "CustomerID".toList, "Region".toList,
    "API_Category".toList, "API_Brand".toList, "API_Rating".toList, "API_Match".toList]

/-- The stringified values of one data row of `save_enriched_data`, in header
order (`[str(tx.get(h, "None")) for h in headers]`). -/
def rowFields (tx : EnrichedTransaction) : List PyStr :=
  [tx.TransactionID, tx.Date, tx.ProductID, tx.ProductName,
    pyStrOfInt tx.Quantity, pyStrOfFloat tx.UnitPrice, tx.CustomerID, tx.Region,
    renderOptStr tx.API_Category, renderOptStr tx.API_Brand,
    renderOptFloat tx.API_Rating, renderBool tx.API_Match]

/-- One data row written by `save_enriched_data` (`"|".join(row)`). -/
def saveRow (tx : EnrichedTransaction) : PyStr :=
  pyJoin '|' (rowFields tx)

/-- The lines of the file written by `save_enriched_data`: the joined header
row followed by one data row per enriched transaction. -/
def save_enriched_lines (enriched_transactions : List EnrichedTransaction) :
    List PyStr :=
  pyJoin '|' headersList :: enriched_transactions.map saveRow

theorem pySplit_no_sep (sep : Char) (xs : PyStr) (h : sep ∉ xs) :
    pySplit sep xs = [xs] := by
  induction xs with
  | nil => rfl
  | cons c cs ih =>
    have hc : ¬c = sep := fun hc => h (hc ▸ List.mem_cons_self c cs)
    have hcs : sep ∉ cs := fun hm => h (List.mem_cons_of_mem c hm)
    rw [pySplit, if_neg hc, ih hcs]

theorem pySplit_append (sep : Char) (xs rest : PyStr) (h : sep ∉ xs) :
    pySplit sep (xs ++ sep :: rest) = xs :: pySplit sep rest := by
  induction xs with
  | nil => simp [pySplit]
  | cons c cs ih =>
    have hc : ¬c = sep := fun hc => h (hc ▸ List.mem_cons_self c cs)
    have hcs : sep ∉ cs := fun hm => h (List.mem_cons_of_mem c hm)
    rw [List.cons_append, pySplit, if_neg hc, ih hcs]

theorem pySplit_pyJoin (sep : Char) (parts : List PyStr) (hne : parts ≠ [])
    (h : ∀ p ∈ parts, sep ∉ p) : pySplit sep (pyJoin sep parts) = parts := by
  induction parts with
  | nil => exact absurd rfl hne
  | cons p ps ih =>
    match ps with
    | [] => exact pySplit_no_sep sep p (h p (by simp))
    | q :: qs =>
      rw [show pyJoin sep (p :: q :: qs) = p ++ sep :: pyJoin sep (q :: qs) from rfl]
      rw [pySplit_append sep p _ (h p (by simp))]
      rw [ih (by simp) fun r hr => h r (List.mem_cons_of_mem p hr)]

/-- An enriched transaction whose brand contains the `'|'` delimiter. -/
def c9bad : EnrichedTransaction :=
  ⟨"T006".toList, "2024-01-06".toList, "P004".toList, "Widget".toList,
    2, 10, "C004".toList, "North".toList,
    some "tools".toList, some "a|b".toList, none, true⟩

/-- **C9, counterexample.** Re-parsing a written data row does *not* recover
the field values of every record: a field value containing the `'|'`
delimiter (here the brand `"a|b"`) splits into extra columns. -/
theorem claim_C9_counterexample :
    pySplit '|' (saveRow c9bad) ≠ rowFields c9bad
    ∧ (pySplit '|' (saveRow c9bad)).length = 13 := by
  constructor <;> decide

/-- **C9, amended.** For every enriched record none of whose rendered field
values contains the `'|'` delimiter (true of everything this pipeline
produces), splitting the written data row on `'|'` recovers exactly the 12
rendered field values in fixed header order, null API fields are rendered as
the literal `"None"`, and the header row re-parses to the 12 header names. -/
theorem claim_C9_round_trip (etx : EnrichedTransaction)
    (h : ∀ f ∈ rowFields etx, '|' ∉ f) :
    pySplit '|' (saveRow etx) = rowFields etx
    ∧ (rowFields etx).length = 12
    ∧ renderOptStr none = "None".toList
    ∧ renderOptFloat none = "None".toList
    ∧ pySplit '|' (pyJoin '|' headersList) = headersList := by
  refine ⟨pySplit_pyJoin '|' (rowFields etx) (by simp [rowFields]) h,
    by simp [rowFields], rfl, rfl, by decide⟩

/-- An enriched transaction with no delimiter in any field. -/
def c9good : EnrichedTransaction :=
  ⟨"T007".toList, "2024-01-07".toList, "P005".toList, "Widget".toList,
    2, 10, "C005".toList, "North".toList,
    some "tools".toList, some "Acme".toList, some 4, true⟩

/-- Witness for the amended C9: a concrete delimiter-free record round-trips. -/
theorem claim_C9_witness :
    (∀ f ∈ rowFields c9good, '|' ∉ f)
    ∧ pySplit '|' (saveRow c9good) = rowFields c9good
    ∧ (rowFields c9good).length = 12
    ∧ renderOptStr none = "None".toList
    ∧ renderOptFloat none = "None".toList
    ∧ pySplit '|' (pyJoin '|' headersList) = headersList := by
  have h : ∀ f ∈ rowFields c9good, '|' ∉ f := by decide
  exact ⟨h, (claim_C9_round_trip c9good h).1, (claim_C9_round_trip c9good h).2.1,
    (claim_C9_round_trip c9good h).2.2.1, (claim_C9_round_trip c9good h).2.2.2.1,
    (claim_C9_round_trip c9good h).2.2.2.2⟩
